import Mathlib

/-!
Verification of `src/migrated_functionality/src/quant_finance_service.py`,
the single source file of the iza-os-finance-advisor-security-bot repository.

The file defines three stateless handlers:
  * `get_stock_data symbol period`   — the quote fetcher,
  * `analyze_portfolio symbols period` — the portfolio summarizer,
  * `ai_financial_advice query`      — the advice relay.

External collaborators (the yfinance price history lookup and the HTTP POST
to the local inference endpoint) are modelled as an explicit environment
`Env` of oracle functions; exceptions raised by them are modelled with
`Except String`, the `String` being the Python exception message `str(e)`.
Close prices are modelled as rationals.
-/

namespace QuantFinance

/-- A portfolio entry as built inside `analyze_portfolio`:
`{'current_price': …, 'change': …, 'change_pct': …}`. -/
structure Entry where
  current_price : ℚ
  change : ℚ
  change_pct : ℚ
  deriving Repr, DecidableEq

/-- Outcome of `requests.post(...)`: either an exception during the call,
or a response carrying a status code and a JSON body.  The body is
`Except`-valued because `response.json()` itself can raise (malformed
JSON); a successfully parsed body is an object mapping string keys to
string values, as consumed by `.get('response', …)`. -/
inductive PostResult where
  | exn (msg : String)
  | resp (status : Nat) (json : Except String (List (String × String)))

/-- The JSON payload of the POST issued by `ai_financial_advice`. -/
structure AdviceRequest where
  url : String
  model : String
  prompt : String
  stream : Bool

/-- The external world: the yfinance history lookup (symbol, period ↦
list of close prices, or an exception), the rendering of
`data.tail().to_string()`, and the HTTP POST. -/
structure Env where
  history : String → String → Except String (List ℚ)
  renderTail : List ℚ → String
  post : AdviceRequest → PostResult

/-! ## Python string primitives

`str.split(',')` and `str.strip()` as used by `analyze_portfolio`,
embedded as structural recursion over the character list. -/

/-- `str.split(',')` on the character list: every comma separates, empty
fields are kept, and the empty string yields one empty field. -/
def splitCommaChars : List Char → List (List Char)
  | [] => [[]]
  | c :: rest =>
      match splitCommaChars rest with
      | [] => [[c]]
      | g :: gs => if c = ',' then [] :: g :: gs else (c :: g) :: gs

/-- Python `symbols.split(',')`. -/
def splitComma (s : String) : List String :=
  (splitCommaChars s.data).map String.mk

/-- Python `symbol.strip()`: drop leading and trailing whitespace. -/
def pyStrip (s : String) : String :=
  String.mk
    (((s.data.dropWhile Char.isWhitespace).reverse.dropWhile
      Char.isWhitespace).reverse)

/-! ## Number formatting

Python's `{x:.2f}` and `{x:+.2f}` format specifiers: round to two decimal
places with round-half-to-even, print the sign of the value (always for
`+.2f`, only `-` for `.2f`), and pad the fractional part to two digits. -/

/-- Round `q * 100` to the nearest integer, ties to even
(the rounding used by Python's fixed-point formatting). -/
def roundHalfEven2dp (q : ℚ) : ℤ :=
  let n : ℤ := q.num * 100
  let d : ℤ := (q.den : ℤ)
  let f : ℤ := n / d
  let r : ℤ := n - f * d
  if 2 * r < d then f
  else if d < 2 * r then f + 1
  else if f % 2 = 0 then f else f + 1

/-- Two-digit zero-padded rendering of `k < 100`. -/
def natDigits2 (k : Nat) : String :=
  if k < 10 then "0" ++ toString k else toString k

/-- Python `f"{x:.2f}"` on the rational `q`. -/
def fixed2 (q : ℚ) : String :=
  let a := (roundHalfEven2dp q).natAbs
  (if q.num < 0 then "-" else "") ++ toString (a / 100) ++ "." ++
    natDigits2 (a % 100)

/-- Python `f"{x:+.2f}"` on the rational `q`: explicit `+` sign for
non-negative values. -/
def signedFixed2 (q : ℚ) : String :=
  let a := (roundHalfEven2dp q).natAbs
  (if q.num < 0 then "-" else "+") ++ toString (a / 100) ++ "." ++
    natDigits2 (a % 100)

/-! ## Quote fetcher: `get_stock_data` -/

/-- The body of `get_stock_data`'s `try` block: fetch the history (which
may raise) and format the header plus the rendered tail. -/
def getStockDataBody (env : Env) (symbol : String) (period : String) :
    Except String String := do
  let data ← env.history symbol period
  pure ("Stock data for " ++ symbol ++ ":\n" ++ env.renderTail data)

/-- `try`/`except` wrapping of a handler body: an exception is converted
to the handler's error string, so the computation as a whole never ends
in `.error`. -/
def handlerRun (body : Except String String) (onErr : String → String) :
    Except String String :=
  match body with
  | .ok s => .ok s
  | .error e => .ok (onErr e)

/-- `get_stock_data` viewed as a fallible computation (its `try` body plus
the `except` clause). -/
def getStockDataE (env : Env) (symbol : String) (period : String) :
    Except String String :=
  handlerRun (getStockDataBody env symbol period)
    (fun e => "Error fetching data for " ++ symbol ++ ": " ++ e)

/-- `get_stock_data(symbol, period="1mo")`. -/
def get_stock_data (env : Env) (symbol : String) (period : String := "1mo") :
    String :=
  match getStockDataE env symbol period with
  | .ok s => s
  | .error e => e

/-! ## Portfolio summarizer: `analyze_portfolio` -/

/-- The entry built for a symbol with non-empty close series `data`:
current price is the last close, change is last minus first close,
percent change is change over first close times 100. -/
def mkEntry (data : List ℚ) : Entry :=
  { current_price := data.getLastI
    change := data.getLastI - data.headI
    change_pct := (data.getLastI - data.headI) / data.headI * 100 }

/-- Python dict assignment `d[k] = v` on an insertion-ordered association
list: replace the value in place if the key exists, else append. -/
def dictInsert : List (String × Entry) → String → Entry → List (String × Entry)
  | [], k, v => [(k, v)]
  | (k', v') :: rest, k, v =>
      if k' = k then (k', v) :: rest else (k', v') :: dictInsert rest k v

/-- The `for symbol in symbols.split(',')` loop of `analyze_portfolio`,
with the accumulated `portfolio_data` dict made explicit.  Each symbol is
trimmed before use; a history lookup may raise, aborting the loop; a
symbol with an empty series is skipped. -/
def portfolioLoop (env : Env) (period : String) :
    List String → List (String × Entry) → Except String (List (String × Entry))
  | [], acc => .ok acc
  | s :: rest, acc =>
    match env.history (pyStrip s) period with
    | .error e => .error e
    | .ok data =>
        portfolioLoop env period rest
          (if data.isEmpty then acc
           else dictInsert acc (pyStrip s) (mkEntry data))

/-- The `portfolio_data` dict computed by `analyze_portfolio` for the raw
comma-separated `symbols` string. -/
def portfolioData (env : Env) (symbols : String) (period : String) :
    Except String (List (String × Entry)) :=
  portfolioLoop env period (splitComma symbols) []

/-- One output line of the summary:
`f"{symbol}: ${price:.2f} ({change:+.2f}, {change_pct:+.2f}%)\n"`. -/
def formatLine (p : String × Entry) : String :=
  p.1 ++ ": $" ++ fixed2 p.2.current_price ++ " (" ++
    signedFixed2 p.2.change ++ ", " ++ signedFixed2 p.2.change_pct ++ "%)\n"

/-- The fixed header of the summary: title line plus a 50-character
separator line of `=`. -/
def portfolioHeader : String :=
  "Portfolio Analysis:\n" ++ String.mk (List.replicate 50 '=') ++ "\n"

/-- The body of `analyze_portfolio`'s `try` block: run the loop, then
format header, separator and one line per entry of `portfolio_data`. -/
def analyzePortfolioBody (env : Env) (symbols : String) (period : String) :
    Except String String := do
  let pd ← portfolioData env symbols period
  pure (portfolioHeader ++ String.join (pd.map formatLine))

/-- `analyze_portfolio` viewed as a fallible computation (its `try` body
plus the `except` clause). -/
def analyzePortfolioE (env : Env) (symbols : String) (period : String) :
    Except String String :=
  handlerRun (analyzePortfolioBody env symbols period)
    (fun e => "Error analyzing portfolio: " ++ e)

/-- `analyze_portfolio(symbols, period="1mo")`. -/
def analyze_portfolio (env : Env) (symbols : String)
    (period : String := "1mo") : String :=
  match analyzePortfolioE env symbols period with
  | .ok s => s
  | .error e => e

/-- The per-symbol lines of the portfolio summary output (everything
after the header and separator), when the handler succeeds; empty when
the loop raised. -/
def portfolioLines (env : Env) (symbols : String) (period : String) :
    List String :=
  match portfolioData env symbols period with
  | .ok pd => pd.map formatLine
  | .error _ => []

/-! ## Advice relay: `ai_financial_advice` -/

/-- The request `ai_financial_advice` POSTs:
hardcoded URL and model, the prompt template around the query,
`stream: false`. -/
def adviceRequest (query : String) : AdviceRequest :=
  { url := "http://localhost:11434/api/generate"
    model := "llama3.1:8b"
    prompt := "Provide financial advice for: " ++ query ++
      ". Be concise and practical."
    stream := false }

/-- The echo fallback `'AI Response: ' + query` used on every failure
path of `ai_financial_advice` and as the `.get` default. -/
def adviceFallback (query : String) : String :=
  "AI Response: " ++ query

/-- The body of `ai_financial_advice`'s `try` block: POST the request;
on status 200 parse the JSON (which may raise) and take the `response`
field, defaulting to the echo fallback; on any other status return the
echo fallback. -/
def aiAdviceBody (env : Env) (query : String) : Except String String :=
  match env.post (adviceRequest query) with
  | .exn m => .error m
  | .resp status json =>
      if status = 200 then
        match json with
        | .error m => .error m
        | .ok obj => .ok ((obj.lookup "response").getD (adviceFallback query))
      else
        .ok (adviceFallback query)

/-- `ai_financial_advice` viewed as a fallible computation (its `try`
body plus the bare `except` clause). -/
def aiAdviceE (env : Env) (query : String) : Except String String :=
  handlerRun (aiAdviceBody env query) (fun _ => adviceFallback query)

/-- `ai_financial_advice(query)`. -/
def ai_financial_advice (env : Env) (query : String) : String :=
  match aiAdviceE env query with
  | .ok s => s
  | .error e => e

/-! ## Concrete test environments -/

/-- An environment in which every external call fails: the history lookup
raises and the POST raises (endpoint unreachable). -/
def envRefused : Env :=
  { history := fun _ _ => .error "connection refused"
    renderTail := fun _ => ""
    post := fun _ => .exn "connection refused" }

/-- A demo environment: the symbol `EMPTY` has an empty price series, the
symbol `BAD` raises, every other symbol has the two-point close series
`[100, 110]`; the inference endpoint answers 200 with
`{"response": "Diversify your holdings."}`. -/
def envDemo : Env :=
  { history := fun s _ =>
      if s = "EMPTY" then .ok []
      else if s = "BAD" then .error "rate limited"
      else .ok [100, 110]
    renderTail := fun _ => ""
    post := fun _ => .resp 200 (.ok [("response", "Diversify your holdings.")]) }

/-- An environment whose inference endpoint answers with status 500. -/
def env500 : Env :=
  { history := fun _ _ => .ok []
    renderTail := fun _ => ""
    post := fun _ => .resp 500 (.ok []) }

/-! ## Helper notions and lemmas for the portfolio loop -/

/-- A (trimmed) symbol that contributes an entry: its lookup succeeds
with a non-empty series. -/
def goodSym (env : Env) (period : String) (s : String) : Bool :=
  match env.history s period with
  | .ok d => !d.isEmpty
  | .error _ => false

/-- The key sequence produced by repeated Python dict insertion starting
from keys `ks`: an existing key is left in place, a new key is appended. -/
def insKeys : List String → List String → List String
  | ks, [] => ks
  | ks, s :: rest => insKeys (if s ∈ ks then ks else ks ++ [s]) rest

theorem keys_dictInsert (d : List (String × Entry)) (k : String) (v : Entry) :
    (dictInsert d k v).map Prod.fst =
      if k ∈ d.map Prod.fst then d.map Prod.fst else d.map Prod.fst ++ [k] := by
  induction d with
  | nil => simp [dictInsert]
  | cons p rest ih =>
      obtain ⟨k', v'⟩ := p
      by_cases hk : k' = k
      · subst hk
        simp [dictInsert]
      · simp only [dictInsert, if_neg hk, List.map_cons, ih]
        by_cases hmem : k ∈ rest.map Prod.fst
        · simp [hmem, Ne.symm hk]
        · simp [hmem, Ne.symm hk]

theorem insKeys_nodup_mem (M : List String) :
    ∀ ks : List String, ks.Nodup →
      (insKeys ks M).Nodup ∧ ∀ x, x ∈ insKeys ks M ↔ x ∈ ks ∨ x ∈ M := by
  induction M with
  | nil => intro ks h; exact ⟨h, by simp [insKeys]⟩
  | cons s rest ih =>
      intro ks h
      by_cases hmem : s ∈ ks
      · have := ih ks h
        refine ⟨(by simpa [insKeys, hmem] using this.1), fun x => ?_⟩
        rw [show insKeys ks (s :: rest) = insKeys ks rest from by
          simp [insKeys, hmem]]
        rw [this.2 x]
        constructor
        · rintro (hx | hx)
          · exact Or.inl hx
          · exact Or.inr (List.mem_cons_of_mem _ hx)
        · rintro (hx | hx)
          · exact Or.inl hx
          · rcases List.mem_cons.mp hx with hx | hx
            · exact Or.inl (hx ▸ hmem)
            · exact Or.inr hx
      · have hks' : (ks ++ [s]).Nodup := by
          rw [List.nodup_append]
          exact ⟨h, List.nodup_singleton s, by simpa using hmem⟩
        have := ih (ks ++ [s]) hks'
        refine ⟨(by simpa [insKeys, hmem] using this.1), fun x => ?_⟩
        rw [show insKeys ks (s :: rest) = insKeys (ks ++ [s]) rest from by
          simp [insKeys, hmem]]
        rw [this.2 x]
        simp only [List.mem_append, List.mem_singleton, List.mem_cons]
        tauto

theorem insKeys_length_dedup (M : List String) :
    (insKeys [] M).length = M.dedup.length := by
  obtain ⟨hnd, hmem⟩ := insKeys_nodup_mem M [] List.nodup_nil
  have hperm : List.Perm (insKeys [] M) M.dedup := by
    rw [List.perm_ext_iff_of_nodup hnd (List.nodup_dedup M)]
    intro a
    rw [hmem a, List.mem_dedup]
    simp
  exact hperm.length_eq

/-- When no symbol of `L` raises, the loop succeeds and its keys are the
`insKeys`-closure of the trimmed symbols whose series is non-empty. -/
theorem portfolioLoop_ok (env : Env) (period : String) :
    ∀ (L : List String) (acc : List (String × Entry)),
      (∀ s ∈ L, (env.history (pyStrip s) period).isOk = true) →
      ∃ res, portfolioLoop env period L acc = .ok res ∧
        res.map Prod.fst =
          insKeys (acc.map Prod.fst)
            ((L.map pyStrip).filter (goodSym env period)) := by
  intro L
  induction L with
  | nil => intro acc _; exact ⟨acc, rfl, rfl⟩
  | cons s rest ih =>
      intro acc h
      have hs := h s (List.mem_cons_self s rest)
      obtain ⟨d, hd⟩ : ∃ d, env.history (pyStrip s) period = .ok d := by
        cases hh : env.history (pyStrip s) period with
        | ok d => exact ⟨d, rfl⟩
        | error e => rw [hh] at hs; simp [Except.isOk, Except.toBool] at hs
      have hrest : ∀ t ∈ rest, (env.history (pyStrip t) period).isOk = true :=
        fun t ht => h t (List.mem_cons_of_mem _ ht)
      by_cases hne : d.isEmpty
      · obtain ⟨res, hres, hkeys⟩ := ih acc hrest
        refine ⟨res, ?_, ?_⟩
        · rw [show portfolioLoop env period (s :: rest) acc
              = portfolioLoop env period rest acc from by
            simp [portfolioLoop, hd, hne]]
          exact hres
        · rw [hkeys]
          have : goodSym env period (pyStrip s) = false := by
            simp [goodSym, hd, hne]
          simp [this]
      · obtain ⟨res, hres, hkeys⟩ :=
          ih (dictInsert acc (pyStrip s) (mkEntry d)) hrest
        refine ⟨res, ?_, ?_⟩
        · rw [show portfolioLoop env period (s :: rest) acc
              = portfolioLoop env period rest
                  (dictInsert acc (pyStrip s) (mkEntry d)) from by
            simp [portfolioLoop, hd, hne]]
          exact hres
        · rw [hkeys, keys_dictInsert]
          have : goodSym env period (pyStrip s) = true := by
            simp [goodSym, hd]
            simpa using hne
          simp only [List.map_cons, List.filter_cons, this, if_true]
          rw [show insKeys (acc.map Prod.fst)
                (pyStrip s :: (rest.map pyStrip).filter (goodSym env period))
              = insKeys
                  (if pyStrip s ∈ acc.map Prod.fst then acc.map Prod.fst
                   else acc.map Prod.fst ++ [pyStrip s])
                  ((rest.map pyStrip).filter (goodSym env period)) from rfl]

/-- If some symbol of `L` raises, the loop raises. -/
theorem portfolioLoop_error (env : Env) (period : String) :
    ∀ (L : List String) (acc : List (String × Entry)),
      (∃ s ∈ L, ∃ m, env.history (pyStrip s) period = .error m) →
      ∃ m, portfolioLoop env period L acc = .error m := by
  intro L
  induction L with
  | nil => intro acc h; simp at h
  | cons s rest ih =>
      intro acc h
      obtain ⟨t, ht, m, hm⟩ := h
      cases hh : env.history (pyStrip s) period with
      | error e => exact ⟨e, by simp [portfolioLoop, hh]⟩
      | ok d =>
          rcases List.mem_cons.mp ht with rfl | ht'
          · rw [hh] at hm; exact absurd hm (by simp)
          · obtain ⟨m', hm'⟩ := ih
              (if d.isEmpty then acc
               else dictInsert acc (pyStrip s) (mkEntry d)) ⟨t, ht', m, hm⟩
            refine ⟨m', ?_⟩
            rw [show portfolioLoop env period (s :: rest) acc
                = portfolioLoop env period rest
                    (if d.isEmpty then acc
                     else dictInsert acc (pyStrip s) (mkEntry d)) from by
              simp [portfolioLoop, hh]]
            exact hm'

/-- A symbol whose series is empty can be removed from the input list
without changing the loop's result. -/
theorem portfolioLoop_skip (env : Env) (period w : String)
    (hw : env.history w period = .ok []) :
    ∀ (L : List String) (acc : List (String × Entry)),
      portfolioLoop env period L acc =
        portfolioLoop env period (L.filter (fun x => pyStrip x != w)) acc := by
  intro L
  induction L with
  | nil => intro acc; rfl
  | cons s rest ih =>
      intro acc
      by_cases hs : pyStrip s = w
      · rw [show (s :: rest).filter (fun x => pyStrip x != w)
            = rest.filter (fun x => pyStrip x != w) from by
          simp [List.filter_cons, hs]]
        rw [show portfolioLoop env period (s :: rest) acc
            = portfolioLoop env period rest acc from by
          simp [portfolioLoop, hs, hw]]
        exact ih acc
      · rw [show (s :: rest).filter (fun x => pyStrip x != w)
            = s :: rest.filter (fun x => pyStrip x != w) from by
          simp [List.filter_cons, hs]]
        cases hh : env.history (pyStrip s) period with
        | error e => simp [portfolioLoop, hh]
        | ok d => simp only [portfolioLoop, hh]; exact ih _

/-- A symbol whose series is empty never appears among the keys produced
by the loop (provided it is not already a key of the accumulator). -/
theorem portfolioLoop_absent (env : Env) (period w : String)
    (hw : env.history w period = .ok []) :
    ∀ (L : List String) (acc : List (String × Entry))
      (res : List (String × Entry)),
      w ∉ acc.map Prod.fst →
      portfolioLoop env period L acc = .ok res →
      w ∉ res.map Prod.fst := by
  intro L
  induction L with
  | nil =>
      intro acc res hacc hres
      rw [show acc = res from by simpa [portfolioLoop] using hres] at hacc
      exact hacc
  | cons s rest ih =>
      intro acc res hacc hres
      cases hh : env.history (pyStrip s) period with
      | error e => rw [show portfolioLoop env period (s :: rest) acc
            = .error e from by simp [portfolioLoop, hh]] at hres; cases hres
      | ok d =>
          rw [show portfolioLoop env period (s :: rest) acc
              = portfolioLoop env period rest
                  (if d.isEmpty then acc
                   else dictInsert acc (pyStrip s) (mkEntry d)) from by
            simp [portfolioLoop, hh]] at hres
          by_cases hde : d.isEmpty
          · exact ih acc res hacc (by simpa [hde] using hres)
          · refine ih (dictInsert acc (pyStrip s) (mkEntry d)) res ?_
              (by simpa [hde] using hres)
            rw [keys_dictInsert]
            have hsw : pyStrip s ≠ w := by
              intro hsw
              rw [hsw, hw] at hh
              have : d = [] := by injection hh.symm
              exact hde (by simp [this])
            by_cases hmem : pyStrip s ∈ acc.map Prod.fst
            · simpa [hmem] using hacc
            · simp [hmem, hacc, Ne.symm hsw]

/-! ## Claim theorems -/

/-- C1 (counterexample): the claim says that when the POST raises,
`get_advice` returns the original query text unchanged.  In the
environment with an unreachable endpoint, `ai_financial_advice` on
`"Should I buy gold?"` returns `"AI Response: Should I buy gold?"`,
which is not the original query. -/
theorem C1_counterexample :
    envRefused.post (adviceRequest "Should I buy gold?")
        = PostResult.exn "connection refused"
    ∧ ai_financial_advice envRefused "Should I buy gold?"
        = "AI Response: Should I buy gold?"
    ∧ ai_financial_advice envRefused "Should I buy gold?"
        ≠ "Should I buy gold?" := by
  refine ⟨rfl, rfl, ?_⟩
  intro h
  have : ("AI Response: Should I buy gold?" : String)
      = "Should I buy gold?" := h
  simp [String.ext_iff] at this

/-- C1 (amended): if the POST raises or the response status is not 200,
`ai_financial_advice` returns the query prefixed with `"AI Response: "`
(not the bare query). -/
theorem C1_advice_failure_echo (env : Env) (query : String)
    (h : (∃ m, env.post (adviceRequest query) = .exn m)
      ∨ (∃ st j, env.post (adviceRequest query) = .resp st j ∧ st ≠ 200)) :
    ai_financial_advice env query = "AI Response: " ++ query := by
  unfold ai_financial_advice aiAdviceE aiAdviceBody handlerRun adviceFallback
  rcases h with ⟨m, hm⟩ | ⟨st, j, hj, hst⟩
  · rw [hm]
  · rw [hj]
    simp [hst]

/-- C1 witness: the amended statement at the unreachable-endpoint
environment and the query from the spec. -/
theorem C1_advice_failure_echo_witness :
    ai_financial_advice envRefused "Should I buy gold?"
      = "AI Response: " ++ "Should I buy gold?" :=
  C1_advice_failure_echo envRefused "Should I buy gold?"
    (Or.inl ⟨"connection refused", rfl⟩)

/-- C2: on HTTP 200 with a JSON body that has the `response` field,
`ai_financial_advice` returns exactly that field's value. -/
theorem C2_advice_success_field (env : Env) (query : String)
    (obj : List (String × String)) (v : String)
    (hpost : env.post (adviceRequest query) = .resp 200 (.ok obj))
    (hv : obj.lookup "response" = some v) :
    ai_financial_advice env query = v := by
  unfold ai_financial_advice aiAdviceE aiAdviceBody handlerRun
  rw [hpost]
  simp [hv]

/-- C2 witness: the endpoint answering 200 with
`{"response": "Diversify your holdings."}` yields exactly
`"Diversify your holdings."`. -/
theorem C2_advice_success_field_witness :
    ai_financial_advice envDemo "Should I buy gold?"
      = "Diversify your holdings." :=
  C2_advice_success_field envDemo "Should I buy gold?"
    [("response", "Diversify your holdings.")] "Diversify your holdings."
    rfl rfl

/-- C9: on every failure path of the advice relay — POST exception,
non-200 status, or 200 with the `response` field absent — the result is
exactly `"AI Response: " ++ query`, hence carries the fixed
`"AI Response: "` prefix. -/
theorem C9_advice_fallback_prefixed (env : Env) (query : String)
    (h : (∃ m, env.post (adviceRequest query) = .exn m)
      ∨ (∃ st j, env.post (adviceRequest query) = .resp st j ∧ st ≠ 200)
      ∨ (∃ obj, env.post (adviceRequest query) = .resp 200 (.ok obj)
          ∧ obj.lookup "response" = none)) :
    ai_financial_advice env query = "AI Response: " ++ query
    ∧ ∃ rest, ai_financial_advice env query = "AI Response: " ++ rest := by
  have hmain : ai_financial_advice env query = "AI Response: " ++ query := by
    unfold ai_financial_advice aiAdviceE aiAdviceBody handlerRun adviceFallback
    rcases h with ⟨m, hm⟩ | ⟨st, j, hj, hst⟩ | ⟨obj, hobj, hnone⟩
    · rw [hm]
    · rw [hj]; simp [hst]
    · rw [hobj]; simp [hnone, adviceFallback]
  exact ⟨hmain, query, hmain⟩

/-- C9 witness: the status-500 environment. -/
theorem C9_advice_fallback_prefixed_witness :
    ai_financial_advice env500 "query"
        = "AI Response: " ++ "query"
    ∧ ∃ rest, ai_financial_advice env500 "query" = "AI Response: " ++ rest :=
  C9_advice_fallback_prefixed env500 "query"
    (Or.inr (Or.inl ⟨500, .ok [], rfl, by decide⟩))

/-- C3: for every non-empty close series, the entry computed by the
summarizer satisfies `change_pct = change / first_close * 100`, and on
the fixed series with first close 100 and last close 110 the formatted
percent change is exactly `"+10.00%"`. -/
theorem C3_percent_change_invariant (data : List ℚ) (h : data ≠ []) :
    (mkEntry data).change_pct = (mkEntry data).change / data.headI * 100
    ∧ signedFixed2 (mkEntry [(100 : ℚ), 110]).change_pct ++ "%" = "+10.00%" := by
  refine ⟨rfl, ?_⟩
  have h10 : (mkEntry [(100 : ℚ), 110]).change_pct = 10 := by
    rw [show (mkEntry [(100 : ℚ), 110]).change_pct
        = ((110 : ℚ) - 100) / 100 * 100 from rfl]
    norm_num
  rw [h10]
  rfl

/-- C3 witness: the invariant at the concrete series `[100, 110]`. -/
theorem C3_percent_change_invariant_witness :
    (mkEntry [(100 : ℚ), 110]).change_pct
        = (mkEntry [(100 : ℚ), 110]).change / ([(100 : ℚ), 110]).headI * 100
    ∧ signedFixed2 (mkEntry [(100 : ℚ), 110]).change_pct ++ "%" = "+10.00%" :=
  C3_percent_change_invariant [(100 : ℚ), 110] (by simp)

/-- C7: when the history lookup raises, `get_stock_data` returns exactly
`"Error fetching data for {symbol}: {message}"` — a string that starts
with `"Error fetching data for "` and contains the symbol — and the
exception does not propagate (the result is that string). -/
theorem C7_fetch_error_string (env : Env) (symbol period m : String)
    (h : env.history symbol period = .error m) :
    get_stock_data env symbol period
        = "Error fetching data for " ++ symbol ++ ": " ++ m
    ∧ (∃ rest, get_stock_data env symbol period
        = "Error fetching data for " ++ rest)
    ∧ (∃ a b, get_stock_data env symbol period = a ++ symbol ++ b) := by
  have he : get_stock_data env symbol period
      = "Error fetching data for " ++ symbol ++ ": " ++ m := by
    unfold get_stock_data getStockDataE getStockDataBody handlerRun
    rw [show env.history symbol period >>= (fun data =>
          pure ("Stock data for " ++ symbol ++ ":\n" ++ env.renderTail data))
        = (Except.error m : Except String String) from by rw [h]; rfl]
  refine ⟨he, ⟨symbol ++ ": " ++ m, ?_⟩, ⟨"Error fetching data for ", ": " ++ m, ?_⟩⟩
  · rw [he]; simp [String.append_assoc]
  · rw [he]; simp [String.append_assoc]

/-- C7 witness: fetching `TSLA` in the all-failing environment. -/
theorem C7_fetch_error_string_witness :
    get_stock_data envRefused "TSLA" "1mo"
        = "Error fetching data for " ++ "TSLA" ++ ": " ++ "connection refused"
    ∧ (∃ rest, get_stock_data envRefused "TSLA" "1mo"
        = "Error fetching data for " ++ rest)
    ∧ (∃ a b, get_stock_data envRefused "TSLA" "1mo" = a ++ "TSLA" ++ b) :=
  C7_fetch_error_string envRefused "TSLA" "1mo" "connection refused" rfl

/-- C8: each of the three handlers, viewed as a fallible computation
(`try` body plus `except` clause), never ends in an exception: it always
produces the string the plain handler returns.  No error escapes a
handler. -/
theorem C8_handlers_total (env : Env)
    (symbol period symbols query : String) :
    getStockDataE env symbol period = .ok (get_stock_data env symbol period)
    ∧ analyzePortfolioE env symbols period
        = .ok (analyze_portfolio env symbols period)
    ∧ aiAdviceE env query = .ok (ai_financial_advice env query) := by
  refine ⟨?_, ?_, ?_⟩
  · unfold get_stock_data getStockDataE handlerRun
    cases getStockDataBody env symbol period <;> rfl
  · unfold analyze_portfolio analyzePortfolioE handlerRun
    cases analyzePortfolioBody env symbols period <;> rfl
  · unfold ai_financial_advice aiAdviceE handlerRun
    cases aiAdviceBody env query <;> rfl

/-- C4 (counterexample): the claim says that when every symbol resolves
to a non-empty series, the number of per-symbol lines equals the number
of symbols in the input list.  For the input `"AAPL,AAPL"` every symbol
resolves to the non-empty series `[100, 110]`, yet the summary has one
line while the input list has two symbols: the duplicate overwrites its
earlier dict entry. -/
theorem C4_counterexample :
    (∀ s ∈ splitComma "AAPL,AAPL",
      ∃ d, envDemo.history (pyStrip s) "1mo" = .ok d ∧ d ≠ [])
    ∧ (portfolioLines envDemo "AAPL,AAPL" "1mo").length
        ≠ (splitComma "AAPL,AAPL").length := by
  constructor
  · intro s hs
    rw [show splitComma "AAPL,AAPL" = ["AAPL", "AAPL"] from rfl] at hs
    simp only [List.mem_cons, List.not_mem_nil, or_false] at hs
    rcases hs with rfl | rfl <;> exact ⟨[100, 110], rfl, by simp⟩
  · rw [show (portfolioLines envDemo "AAPL,AAPL" "1mo").length = 1 from rfl,
      show (splitComma "AAPL,AAPL").length = 2 from rfl]
    norm_num

/-- C4 (amended): when every symbol of the input resolves to a non-empty
series, the number of per-symbol lines equals the number of DISTINCT
trimmed symbols in the input list (duplicates collapse to one line), and
every line is of the `formatLine` shape
`{symbol}: ${price:.2f} ({change:+.2f}, {change_pct:+.2f}%)`. -/
theorem C4_lines_per_distinct_symbol (env : Env) (symbols period : String)
    (h : ∀ s ∈ splitComma symbols,
      ∃ d, env.history (pyStrip s) period = .ok d ∧ d ≠ []) :
    (portfolioLines env symbols period).length
        = ((splitComma symbols).map pyStrip).dedup.length
    ∧ ∀ line ∈ portfolioLines env symbols period, ∃ p, line = formatLine p := by
  have hOk : ∀ s ∈ splitComma symbols,
      (env.history (pyStrip s) period).isOk = true := by
    intro s hs
    obtain ⟨d, hd, _⟩ := h s hs
    rw [hd]; rfl
  obtain ⟨res, hres, hkeys⟩ :=
    portfolioLoop_ok env period (splitComma symbols) [] hOk
  simp only [List.map_nil] at hkeys
  have hfilter : ((splitComma symbols).map pyStrip).filter (goodSym env period)
      = (splitComma symbols).map pyStrip := by
    apply List.filter_eq_self.mpr
    intro x hx
    obtain ⟨s, hs, rfl⟩ := List.mem_map.mp hx
    obtain ⟨d, hd, hdne⟩ := h s hs
    simp [goodSym, hd, hdne]
  have hlines : portfolioLines env symbols period = res.map formatLine := by
    unfold portfolioLines
    rw [show portfolioData env symbols period = Except.ok res from hres]
  constructor
  · rw [hlines, List.length_map]
    have hlen := congrArg List.length hkeys
    rw [List.length_map, hfilter] at hlen
    rw [hlen, insKeys_length_dedup]
  · intro line hline
    rw [hlines] at hline
    obtain ⟨p, _, hp⟩ := List.mem_map.mp hline
    exact ⟨p, hp.symm⟩

/-- C4 witness: the amended statement at the duplicate input
`"AAPL,AAPL"`, whose single line is the `AAPL` line. -/
theorem C4_lines_per_distinct_symbol_witness :
    (portfolioLines envDemo "AAPL,AAPL" "1mo").length
        = ((splitComma "AAPL,AAPL").map pyStrip).dedup.length
    ∧ ∃ p, formatLine ("AAPL", mkEntry [100, 110]) = formatLine p := by
  have h := C4_lines_per_distinct_symbol envDemo "AAPL,AAPL" "1mo" (by
    intro s hs
    rw [show splitComma "AAPL,AAPL" = ["AAPL", "AAPL"] from rfl] at hs
    simp only [List.mem_cons, List.not_mem_nil, or_false] at hs
    rcases hs with rfl | rfl <;> exact ⟨[100, 110], rfl, by simp⟩)
  refine ⟨h.1, h.2 (formatLine ("AAPL", mkEntry [100, 110])) ?_⟩
  rw [show portfolioLines envDemo "AAPL,AAPL" "1mo"
      = [formatLine ("AAPL", mkEntry [100, 110])] from rfl]
  exact List.mem_singleton_self _

/-- C5: a symbol whose fetched series is empty contributes no entry and
no line, raises no error, and all other symbols are processed as if it
were absent from the input list. -/
theorem C5_empty_series_skipped (env : Env) (symbols period t : String)
    (ht : env.history (pyStrip t) period = .ok []) :
    portfolioData env symbols period
        = portfolioLoop env period
            ((splitComma symbols).filter (fun x => pyStrip x != pyStrip t)) []
    ∧ ∀ res, portfolioData env symbols period = .ok res →
        pyStrip t ∉ res.map Prod.fst := by
  constructor
  · exact portfolioLoop_skip env period (pyStrip t) ht (splitComma symbols) []
  · intro res hres
    exact portfolioLoop_absent env period (pyStrip t) ht
      (splitComma symbols) [] res (by simp) hres

/-- C5 witness: the input `"AAPL,EMPTY"` in the demo environment, where
`EMPTY` has the empty series; the result holds only the `AAPL` entry. -/
theorem C5_empty_series_skipped_witness :
    (portfolioData envDemo "AAPL,EMPTY" "1mo"
        = portfolioLoop envDemo "1mo"
            ((splitComma "AAPL,EMPTY").filter
              (fun x => pyStrip x != pyStrip "EMPTY")) [])
    ∧ pyStrip "EMPTY"
        ∉ ([("AAPL", mkEntry [100, 110])] : List (String × Entry)).map
            Prod.fst :=
  ⟨(C5_empty_series_skipped envDemo "AAPL,EMPTY" "1mo" "EMPTY" rfl).1,
    (C5_empty_series_skipped envDemo "AAPL,EMPTY" "1mo" "EMPTY" rfl).2
      [("AAPL", mkEntry [100, 110])] rfl⟩

/-- C6: if any symbol's lookup raises during the loop, the whole
operation aborts: the `try` body ends in that exception and the handler
returns the single string `"Error analyzing portfolio: {message}"`,
with no partial per-symbol results in the returned value. -/
theorem C6_portfolio_abort (env : Env) (symbols period : String)
    (h : ∃ s ∈ splitComma symbols,
      ∃ m, env.history (pyStrip s) period = .error m) :
    ∃ m, analyzePortfolioBody env symbols period = .error m
      ∧ analyze_portfolio env symbols period
          = "Error analyzing portfolio: " ++ m := by
  obtain ⟨m, hm⟩ := portfolioLoop_error env period (splitComma symbols) [] h
  refine ⟨m, ?_, ?_⟩
  · unfold analyzePortfolioBody portfolioData
    rw [hm]
    rfl
  · unfold analyze_portfolio analyzePortfolioE handlerRun
    unfold analyzePortfolioBody portfolioData
    rw [hm]
    rfl

/-- C6 witness: the input `"AAPL,BAD"` in the demo environment, where
`BAD` raises `"rate limited"`. -/
theorem C6_portfolio_abort_witness :
    analyze_portfolio envDemo "AAPL,BAD" "1mo"
      = "Error analyzing portfolio: " ++ "rate limited" := by
  obtain ⟨m, h1, h2⟩ := C6_portfolio_abort envDemo "AAPL,BAD" "1mo"
    ⟨"BAD", by
      rw [show splitComma "AAPL,BAD" = ["AAPL", "BAD"] from rfl]
      simp, "rate limited", rfl⟩
  have hbody : analyzePortfolioBody envDemo "AAPL,BAD" "1mo"
      = .error "rate limited" := rfl
  rw [h1] at hbody
  have hm : m = "rate limited" := by injection hbody
  rw [hm] at h2
  exact h2

/-- C10: when no symbol's lookup raises, the summarizer's dict has
pairwise distinct keys — at most one line per trimmed symbol, later
duplicates overwriting earlier entries — and the number of per-symbol
lines equals the number of distinct trimmed symbols whose series is
non-empty, not the number of list elements. -/
theorem C10_duplicate_symbols_collapse (env : Env) (symbols period : String)
    (h : ∀ s ∈ splitComma symbols,
      (env.history (pyStrip s) period).isOk = true) :
    ∃ res, portfolioData env symbols period = .ok res
      ∧ (res.map Prod.fst).Nodup
      ∧ (portfolioLines env symbols period).length
          = (((splitComma symbols).map pyStrip).filter
              (goodSym env period)).dedup.length := by
  obtain ⟨res, hres, hkeys⟩ :=
    portfolioLoop_ok env period (splitComma symbols) [] h
  simp only [List.map_nil] at hkeys
  refine ⟨res, hres, ?_, ?_⟩
  · rw [hkeys]
    exact (insKeys_nodup_mem _ [] List.nodup_nil).1
  · have hlines : portfolioLines env symbols period = res.map formatLine := by
      unfold portfolioLines
      rw [show portfolioData env symbols period = Except.ok res from hres]
    rw [hlines, List.length_map]
    have hlen := congrArg List.length hkeys
    rw [List.length_map] at hlen
    rw [hlen, insKeys_length_dedup]

/-- C10 witness: the input `"AAPL,AAPL,EMPTY"` has three list elements,
two distinct trimmed symbols, and one distinct trimmed symbol with a
non-empty series; the summary has exactly one line with distinct keys. -/
theorem C10_duplicate_symbols_collapse_witness :
    (([("AAPL", mkEntry [100, 110])] : List (String × Entry)).map
        Prod.fst).Nodup
    ∧ (portfolioLines envDemo "AAPL,AAPL,EMPTY" "1mo").length
        = (((splitComma "AAPL,AAPL,EMPTY").map pyStrip).filter
            (goodSym envDemo "1mo")).dedup.length := by
  obtain ⟨res, hres, hnd, hlen⟩ :=
    C10_duplicate_symbols_collapse envDemo "AAPL,AAPL,EMPTY" "1mo" (by
      intro s hs
      rw [show splitComma "AAPL,AAPL,EMPTY"
          = ["AAPL", "AAPL", "EMPTY"] from rfl] at hs
      simp only [List.mem_cons, List.not_mem_nil, or_false] at hs
      rcases hs with rfl | rfl | rfl <;> rfl)
  have hres' : portfolioData envDemo "AAPL,AAPL,EMPTY" "1mo"
      = .ok [("AAPL", mkEntry [100, 110])] := rfl
  rw [hres] at hres'
  have : res = [("AAPL", mkEntry [100, 110])] := by injection hres'
  exact ⟨this ▸ hnd, hlen⟩

end QuantFinance
